import Mathlib

/-!
Verification development for the docx-to-site paragraph-stream classifier
(`scripts/docx_to_jekyll.py`): a shallow embedding of the string helpers,
the item segmenter (`build_items_for_section`) and the stream classifier
(`parse_docx`), with theorems about the specified properties.
-/

set_option maxRecDepth 4000

/-! ## Python string primitives (restricted to the ASCII/Cyrillic domain) -/

/-- Characters treated as whitespace by Python `str.strip()` on the
ASCII range (the document domain uses only these). -/
def pyWs (c : Char) : Bool :=
  c = ' ' || c = '\t' || c = '\n' || c = '\r' || c.toNat = 11 || c.toNat = 12

/-- Strip characters satisfying `p` from both ends of a character list,
modelling Python `str.strip(chars)`. -/
def stripEnds (p : Char → Bool) (l : List Char) : List Char :=
  ((l.dropWhile p).reverse.dropWhile p).reverse

/-- Strip from the right only, modelling Python `str.rstrip()`. -/
def rstripList (p : Char → Bool) (l : List Char) : List Char :=
  (l.reverse.dropWhile p).reverse

/-- Python `str.strip()` (whitespace on both ends). -/
def pyStr (s : String) : String := ⟨stripEnds pyWs s.data⟩

/-- Lowercasing of one character, modelling Python `str.lower()` on the
Latin and Cyrillic ranges actually occurring in the documents; other
characters are left unchanged. -/
def pyLower (c : Char) : Char :=
  if 'A' ≤ c ∧ c ≤ 'Z' then Char.ofNat (c.toNat + 32)
  else if 'А' ≤ c ∧ c ≤ 'Я' then Char.ofNat (c.toNat + 32)
  else if c = 'Ё' then 'ё' else c

/-- Table `CYR_MAP` from the source: transliteration table for lowercase
Cyrillic letters. -/
def cyrMap : List (Char × String) :=
  [('а', "a"), ('б', "b"), ('в', "v"), ('г', "g"), ('д', "d"), ('е', "e"),
   ('ё', "e"), ('ж', "zh"), ('з', "z"), ('и', "i"), ('й', "y"), ('к', "k"),
   ('л', "l"), ('м', "m"), ('н', "n"), ('о', "o"), ('п', "p"), ('р', "r"),
   ('с', "s"), ('т', "t"), ('у', "u"), ('ф', "f"), ('х', "h"), ('ц', "ts"),
   ('ч', "ch"), ('ш', "sh"), ('щ', "sch"), ('ъ', ""), ('ы', "y"), ('ь', ""),
   ('э', "e"), ('ю', "yu"), ('я', "ya")]

/-- Python `CYR_MAP.get(ch, ch)`. -/
def translitChar (c : Char) : String :=
  match cyrMap.find? (fun kv => kv.fst = c) with
  | some kv => kv.snd
  | none => String.mk [c]

/-- Source `transliterate`: join of `CYR_MAP.get(ch, ch)` over `value.lower()`. -/
def transliterate (value : String) : String :=
  String.join ((value.data.map pyLower).map translitChar)

/-- Alphanumeric in the sense of the regex class `[a-z0-9]`. -/
def isAln (c : Char) : Bool := ('a' ≤ c && c ≤ 'z') || ('0' ≤ c && c ≤ '9')

/-- Replace every maximal run of characters outside `[a-z0-9]` by a
single `-`, modelling `re.sub(r"[^a-z0-9]+", "-", s)`.  The flag records
whether the previous character was part of such a run. -/
def collapseRuns (prevNon : Bool) : List Char → List Char
  | [] => []
  | c :: cs =>
    if isAln c then c :: collapseRuns false cs
    else if prevNon then collapseRuns true cs
    else '-' :: collapseRuns true cs

/-- The slug computed from a title before the fallback:
`re.sub(r"[^a-z0-9]+", "-", transliterate(value)).strip("-")`. -/
def slugCore (value : String) : String :=
  ⟨stripEnds (fun c => c = '-') (collapseRuns false (transliterate value).data)⟩

/-- Source `slugify(value, fallback)`: the stripped slug, or the fallback if it
is empty. -/
def slugify (value fallback : String) : String :=
  if slugCore value = "" then fallback else slugCore value

/-! ## Decimal rendering of an index (Python `f"...{idx}"`) -/

/-- Little-endian decimal digit characters of `n`, with fuel. -/
def natDecAux : Nat → Nat → List Char
  | 0, _ => []
  | fuel + 1, n => if n = 0 then [] else Nat.digitChar (n % 10) :: natDecAux fuel (n / 10)

/-- Decimal rendering of a natural number, as Python `str(int)`. -/
def natDec (n : Nat) : String :=
  if n = 0 then "0" else ⟨(natDecAux n n).reverse⟩

theorem natDecAux_eq_digits : ∀ fuel n, n ≤ fuel →
    natDecAux fuel n = (Nat.digits 10 n).map Nat.digitChar := by
  intro fuel
  induction fuel with
  | zero =>
    intro n hn
    interval_cases n
    simp [natDecAux]
  | succ f ih =>
    intro n hn
    by_cases h0 : n = 0
    · simp [natDecAux, h0]
    · have hpos : 0 < n := Nat.pos_of_ne_zero h0
      rw [natDecAux, if_neg h0, Nat.digits_def' (by norm_num) hpos, List.map_cons]
      congr 1
      exact ih (n / 10) (by omega)

theorem digitChar_inj (a b : Nat) (ha : a < 10) (hb : b < 10)
    (h : Nat.digitChar a = Nat.digitChar b) : a = b := by
  interval_cases a <;> interval_cases b <;> simp_all [Nat.digitChar]

theorem map_digitChar_inj : ∀ (l₁ l₂ : List Nat), (∀ x ∈ l₁, x < 10) → (∀ x ∈ l₂, x < 10) →
    l₁.map Nat.digitChar = l₂.map Nat.digitChar → l₁ = l₂ := by
  intro l₁
  induction l₁ with
  | nil => intro l₂ _ _ h; cases l₂ <;> simp_all
  | cons a t ih =>
    intro l₂ h1 h2 h
    cases l₂ with
    | nil => simp_all
    | cons b t₂ =>
      simp only [List.map_cons, List.cons.injEq] at h
      have hab : a = b :=
        digitChar_inj a b (h1 a (by simp)) (h2 b (by simp)) h.1
      have : t = t₂ := ih t₂ (fun x hx => h1 x (by simp [hx])) (fun x hx => h2 x (by simp [hx])) h.2
      simp [hab, this]

theorem natDec_inj (i j : Nat) (hi : 0 < i) (hj : 0 < j) (h : natDec i = natDec j) : i = j := by
  rw [natDec, natDec, if_neg (Nat.pos_iff_ne_zero.mp hi), if_neg (Nat.pos_iff_ne_zero.mp hj)] at h
  have hdata : (natDecAux i i).reverse = (natDecAux j j).reverse := congrArg String.data h
  have hlists : natDecAux i i = natDecAux j j := List.reverse_injective hdata
  rw [natDecAux_eq_digits i i (le_refl i), natDecAux_eq_digits j j (le_refl j)] at hlists
  have hdig : Nat.digits 10 i = Nat.digits 10 j :=
    map_digitChar_inj _ _ (fun x hx => Nat.digits_lt_base (by norm_num) hx)
      (fun x hx => Nat.digits_lt_base (by norm_num) hx) hlists
  exact Nat.digits.injective 10 hdig

/-! ## Section/heading helpers from the source -/

/-- Source `normalize_section(name)`: `name.strip().lower()`. -/
def normalizeSection (name : String) : String :=
  ⟨(stripEnds pyWs name.data).map pyLower⟩

/-- Substring test on character lists (Python `needle in hay`). -/
def listContainsSub (needle : List Char) : List Char → Bool
  | [] => needle.isEmpty
  | c :: t => needle.isPrefixOf (c :: t) || listContainsSub needle t

/-- Substring test on strings. -/
def strContains (hay needle : String) : Bool := listContainsSub needle.data hay.data

/-- Source `is_footer_section_key`. -/
def isFooterSectionKey (sectionKey : String) : Bool :=
  strContains sectionKey "нижний" &&
    (strContains sectionKey "колонтитул" || strContains sectionKey "колонтикул")

/-- First blank-line-delimited block: `body.split("\n\n", 1)[0]`. -/
def firstBlockList : List Char → List Char
  | [] => []
  | '\n' :: '\n' :: _ => []
  | c :: cs => c :: firstBlockList cs

/-- The stripped first block of a body, the base of the excerpt. -/
def excerptBase (body : String) : String := ⟨stripEnds pyWs (firstBlockList body.data)⟩

/-- Source `item_excerpt(body)`. -/
def itemExcerpt (body : String) : String :=
  if 240 < (excerptBase body).length then
    String.mk (rstripList pyWs ((excerptBase body).data.take 237)) ++ "..."
  else excerptBase body

/-- The characters of Python `strip(" :.-")` used on marker values. -/
def markerStripChar (c : Char) : Bool := c = ' ' || c = ':' || c = '.' || c = '-'

/-- Source `parse_heading4_date(text)`: the marker test is on the normalized
text, the value is cut from the original text. -/
def parseHeading4Date (text : String) : Bool × String :=
  if "дата".data.isPrefixOf (normalizeSection text).data then
    (true, ⟨stripEnds markerStripChar (text.data.drop 4)⟩)
  else (false, "")

/-- Character class `["\']` of the source regex: in the raw pattern
string it denotes the set quote, backslash, apostrophe. -/
def isQuoteCls (c : Char) : Bool := c = '"' || c.toNat = 92 || c.toNat = 39

/-- Letter `s` or `S` (the pattern `s*` under `re.IGNORECASE`). -/
def isSChar (c : Char) : Bool := c = 's' || c = 'S'

/-- Attempt the source's video regex at the head of `l`.  The pattern is
the raw string `src\\s*=\\s*["\\\']([^"\\\']+)["\\\']`, so after `src`
it requires a literal backslash, then a run of `s`, then `=`, then again
a literal backslash and a run of `s`, then a quoted group. -/
def srcMatchAt (l : List Char) : Option (List Char) :=
  match l with
  | c1 :: c2 :: c3 :: c4 :: rest =>
    if (c1 = 's' || c1 = 'S') && (c2 = 'r' || c2 = 'R') && (c3 = 'c' || c3 = 'C') &&
        c4.toNat = 92 then
      match rest.dropWhile isSChar with
      | '=' :: r2 =>
        match r2 with
        | c5 :: r3 =>
          if c5.toNat = 92 then
            match r3.dropWhile isSChar with
            | q :: r4 =>
              if isQuoteCls q then
                match r4.takeWhile (fun c => !isQuoteCls c), r4.dropWhile (fun c => !isQuoteCls c) with
                | [], _ => none
                | grp, q2 :: _ => if isQuoteCls q2 then some grp else none
                | _, [] => none
              else none
            | [] => none
          else none
        | [] => none
      | _ => none
    else none
  | _ => none

/-- Leftmost search of the pattern, as `re.search`. -/
def srcSearch : List Char → Option (List Char)
  | [] => none
  | c :: cs =>
    match srcMatchAt (c :: cs) with
    | some g => some g
    | none => srcSearch cs

/-- Source `normalize_video_url(value)`. -/
def normalizeVideoUrl (value : String) : String :=
  if value = "" then ""
  else
    match srcSearch value.data with
    | some g => ⟨stripEnds pyWs g⟩
    | none => pyStr value

/-- Source `parse_heading4_video(text)`. -/
def parseHeading4Video (text : String) : Bool × String :=
  if "видео".data.isPrefixOf (normalizeSection text).data then
    (true, normalizeVideoUrl ⟨stripEnds markerStripChar (text.data.drop 5)⟩)
  else (false, "")

/-- The embedded-frame block appended to a body for a video value. -/
def videoDiv (url : String) : String :=
  "<div class=\"news-video\"><iframe src=\"" ++ url ++ "\"></iframe></div>"

example : slugCore "Привет" = "privet" := by decide
example : slugCore "!!!" = "" := by decide
example : slugify "Ёлка, ёж" "fb" = "elka-ezh" := by decide
example : parseHeading4Date "Дата: 12.05.2024" = (true, "12.05.2024") := by decide
example : parseHeading4Date "Дата" = (true, "") := by decide
example : parseHeading4Video "Видео" = (true, "") := by decide
example : normalizeVideoUrl "<iframe src=\"https://e.com/v\"></iframe>"
    = "<iframe src=\"https://e.com/v\"></iframe>" := by decide
example : isFooterSectionKey "нижний колонтитул" = true := by decide
example : itemExcerpt "ab\n\ncd" = "ab" := by decide

/-! ## Data model -/

/-- Source `RawParagraph`: style (heading level or none), trimmed text, image
relationship ids. -/
structure Para where
  style : Option String
  text : String
  imageRelIds : List String
deriving DecidableEq

/-- Source `SectionItem` as produced by the segmenter (the renderer-only fields
`detail_url` and `image_paths` keep their constructor defaults). -/
structure Item where
  idx : Nat
  title : String
  body : String
  imageRelIds : List String
  eventDate : String
  excerpt : String
  slug : String
  detailUrl : String := ""
  imagePaths : List String := []
deriving DecidableEq

/-- Source `MenuSection`. -/
structure MSection where
  title : String
  slug : String
  items : List Item
deriving DecidableEq

/-- Source `SiteData`. -/
structure SiteData where
  homeTitle : String
  siteTitle : String
  headerTitleMain : String
  headerTitleSub : String
  footerText : String
  logoRelId : Option String
  homeContentBlocks : List Para
  menuSections : List MSection
  homePreviewKeys : List String
deriving DecidableEq

/-! ## Item segmenter (`build_items_for_section`) -/

/-- Mutable locals of `build_items_for_section`. -/
structure BuildState where
  items : List Item
  curTitle : Option String
  curBody : List String
  curImages : List String
  curDate : String
  waitingDate : Bool
  waitingVideo : Bool
deriving DecidableEq

/-- The starting locals of `build_items_for_section`. -/
def segStart : BuildState :=
  { items := [], curTitle := none, curBody := [], curImages := [],
    curDate := "", waitingDate := false, waitingVideo := false }

/-- Paragraph opens a new item: depth-3 style with non-empty text. -/
def isH3Text (p : Para) : Bool :=
  (p.style == some "3" || p.style == some "Heading3") && p.text ≠ ""

/-- Depth-4 style with non-empty text. -/
def isH4Text (p : Para) : Bool :=
  (p.style == some "4" || p.style == some "Heading4") && p.text ≠ ""

/-- Source `flush_item()`: emits the accumulated item when a truthy title is
open; a falsy title (none or empty) leaves the state untouched. -/
def flushItem (sectionSlug : String) (st : BuildState) : BuildState :=
  match st.curTitle with
  | none => st
  | some t =>
    if t = "" then st
    else
      { items := st.items ++
          [{ idx := st.items.length + 1, title := t,
             body := pyStr (String.intercalate "\n\n" (st.curBody.filter (fun part => part ≠ ""))),
             imageRelIds := st.curImages, eventDate := st.curDate,
             excerpt := itemExcerpt (pyStr (String.intercalate "\n\n" (st.curBody.filter (fun part => part ≠ "")))),
             slug := slugify t (sectionSlug ++ "-item-" ++ natDec (st.items.length + 1)) }],
        curTitle := none, curBody := [], curImages := [], curDate := "",
        waitingDate := false, waitingVideo := false }

/-- Image merge: append each new id not already present. -/
def addImages (cur : List String) (new : List String) : List String :=
  new.foldl (fun acc r => if acc.contains r then acc else acc ++ [r]) cur

/-- The part of the loop body after the heading branches: implicit-item
fallback, the two value latches, then body/image accumulation. -/
def segStepTail (sectionTitle : String) (st : BuildState) (p : Para) : BuildState :=
  let st1 := if st.curTitle = none then { st with curTitle := some sectionTitle } else st
  if st1.waitingDate && p.text ≠ "" then
    { st1 with curDate := p.text, waitingDate := false }
  else if st1.waitingVideo && p.text ≠ "" then
    { st1 with curBody := st1.curBody ++ [videoDiv (normalizeVideoUrl p.text)], waitingVideo := false }
  else
    let st2 := if p.text ≠ "" then { st1 with curBody := st1.curBody ++ [p.text] } else st1
    { st2 with curImages := addImages st2.curImages p.imageRelIds }

/-- One iteration of the `build_items_for_section` loop. -/
def segStep (sectionTitle sectionSlug : String) (st : BuildState) (p : Para) : BuildState :=
  if isH3Text p then { flushItem sectionSlug st with curTitle := some p.text }
  else if isH4Text p && (parseHeading4Date p.text).fst then
    if (parseHeading4Date p.text).snd ≠ "" then
      { st with curDate := (parseHeading4Date p.text).snd, waitingDate := false }
    else { st with waitingDate := true }
  else if isH4Text p && (parseHeading4Video p.text).fst then
    if (parseHeading4Video p.text).snd ≠ "" then
      { st with curBody := st.curBody ++ [videoDiv (parseHeading4Video p.text).snd], waitingVideo := false }
    else { st with waitingVideo := true }
  else segStepTail sectionTitle st p

/-- Source `build_items_for_section(section_title, section_slug, paragraphs)`. -/
def buildItemsForSection (sectionTitle sectionSlug : String) (paragraphs : List Para) : List Item :=
  (flushItem sectionSlug (paragraphs.foldl (segStep sectionTitle sectionSlug) segStart)).items

example :
    (buildItemsForSection "Новости" "news"
      [⟨some "3", "Первая", []⟩, ⟨none, "текст", ["rId1"]⟩]).map
        (fun it => (it.idx, it.title, it.body, it.slug, it.imageRelIds))
      = [(1, "Первая", "текст", "pervaya", ["rId1"])] := by decide

example :
    (buildItemsForSection "Новости" "news"
      [⟨none, "интро", []⟩, ⟨some "3", "Заголовок", []⟩, ⟨none, "текст", []⟩]).map
        (fun it => (it.title, it.body)) = [("Новости", "интро"), ("Заголовок", "текст")] := by decide

example :
    (buildItemsForSection "Новости" "news"
      [⟨some "4", "Дата", []⟩, ⟨none, "12.05.2024", []⟩]).map
        (fun it => (it.title, it.eventDate, it.body)) = [("Новости", "12.05.2024", "")] := by decide

example : buildItemsForSection "Новости" "news" [⟨some "4", "Дата", []⟩, ⟨some "4", "Видео", []⟩] = [] := by decide

/-! ## Stream classifier (`parse_docx`, lines 242-362) -/

/-- Association-list lookup key test (insertion-ordered Python dict). -/
def alistHas (m : List (String × α)) (k : String) : Bool := m.any (fun kv => kv.fst == k)

/-- Association-list lookup with default. -/
def alistGetD (m : List (String × α)) (k : String) (d : α) : α :=
  match m.find? (fun kv => kv.fst == k) with
  | some kv => kv.snd
  | none => d

/-- Append one paragraph to the bucket stored under `k`. -/
def alistAppendPara (m : List (String × List Para)) (k : String) (p : Para) :
    List (String × List Para) :=
  m.map (fun kv => if kv.fst = k then (kv.fst, kv.snd ++ [p]) else kv)

/-- Append a whole list to the bucket stored under `k`. -/
def alistAppendList (m : List (String × List Para)) (k : String) (l : List Para) :
    List (String × List Para) :=
  m.map (fun kv => if kv.fst = k then (kv.fst, kv.snd ++ l) else kv)

/-- Style tests for heading depths 1 and 2. -/
def isStyle1 (s : Option String) : Bool := s == some "1" || s == some "Heading1"

def isStyle2 (s : Option String) : Bool := s == some "2" || s == some "Heading2"

def isStyle3 (s : Option String) : Bool := s == some "3" || s == some "Heading3"

/-- The reserved base section keys. -/
def baseSections : List String := ["меню", "контент", "название"]

/-- The mutable classifier state of the `parse_docx` loop. -/
structure CState where
  menuItems : List String
  titleLines : List String
  titleImageRelIds : List String
  footerLines : List String
  homeContentBlocks : List Para
  sectionParagraphs : List (String × List Para)
  sectionTitles : List (String × String)
  sectionOrder : List String
  homePreviewKeys : List String
  currentSection : Option String
  currentH1 : String
deriving DecidableEq

/-- The classifier state before the loop: `homeKey` is the normalized
home title. -/
def startCState (homeKey : String) : CState :=
  { menuItems := [], titleLines := [], titleImageRelIds := [], footerLines := [],
    homeContentBlocks := [], sectionParagraphs := [], sectionTitles := [],
    sectionOrder := [], homePreviewKeys := [], currentSection := none,
    currentH1 := homeKey }

/-- The zone-collection tail of the loop body (lines 305-328). -/
def collectZone (st : CState) (p : Para) : CState :=
  match st.currentSection with
  | none => st
  | some sec =>
    if sec = "меню" then
      if isStyle3 p.style && p.text ≠ "" then { st with menuItems := st.menuItems ++ [p.text] }
      else st
    else if sec = "название" then
      { st with
        titleLines := if p.text ≠ "" then st.titleLines ++ [p.text] else st.titleLines,
        titleImageRelIds := addImages st.titleImageRelIds p.imageRelIds }
    else if sec = "контент" then
      { st with homeContentBlocks := st.homeContentBlocks ++ [p] }
    else if sec = "__footer__" then
      if p.text ≠ "" then { st with footerLines := st.footerLines ++ [p.text] } else st
    else if alistHas st.sectionParagraphs sec then
      { st with sectionParagraphs := alistAppendPara st.sectionParagraphs sec p }
    else st

/-- One iteration of the `parse_docx` loop over `raw_paragraphs[1:]`. -/
def classStep (homeKey : String) (st : CState) (p : Para) : CState :=
  let st := if p.text ≠ "" && isStyle1 p.style then { st with currentH1 := normalizeSection p.text } else st
  if p.text ≠ "" && (isStyle1 p.style || isStyle2 p.style) then
    let key := normalizeSection p.text
    let menuKeys := st.menuItems.map normalizeSection
    if isStyle2 p.style && st.currentH1 == homeKey && isFooterSectionKey key then
      { st with currentSection := some "__footer__" }
    else if isStyle2 p.style && st.currentH1 == homeKey && !baseSections.contains key &&
        !isFooterSectionKey key then
      { st with
        homePreviewKeys :=
          if st.homePreviewKeys.contains key then st.homePreviewKeys
          else st.homePreviewKeys ++ [key],
        currentSection := none }
    else
      let isBase := isStyle2 p.style && baseSections.contains key
      let isDyn :=
        if isStyle1 p.style then
          if menuKeys.isEmpty then key ≠ homeKey && !baseSections.contains key
          else menuKeys.contains key
        else if isStyle2 p.style && !baseSections.contains key then menuKeys.contains key
        else false
      if isBase || isDyn then
        { st with
          currentSection := some key,
          sectionTitles :=
            if alistHas st.sectionTitles key then st.sectionTitles
            else st.sectionTitles ++ [(key, p.text)],
          sectionParagraphs :=
            if !baseSections.contains key && !alistHas st.sectionParagraphs key then
              st.sectionParagraphs ++ [(key, [])]
            else st.sectionParagraphs,
          sectionOrder :=
            if !baseSections.contains key && !alistHas st.sectionParagraphs key then
              st.sectionOrder ++ [key]
            else st.sectionOrder }
      else collectZone st p
  else collectZone st p

/-- The classifier loop over the stream after the home paragraph. -/
def classifyTail (homeKey : String) (rest : List Para) : CState :=
  rest.foldl (classStep homeKey) (startCState homeKey)

/-- The menu sections assembly (lines 340-349), enumerating from 1. -/
def mkMenuSections (st : CState) : Nat → List String → List MSection
  | _, [] => []
  | i, menuName :: rest =>
    let key := normalizeSection menuName
    let sectionTitle := alistGetD st.sectionTitles key menuName
    let sectionSlug :=
      if key = "новости" then "news" else slugify sectionTitle ("section-" ++ natDec i)
    { title := sectionTitle, slug := sectionSlug,
      items := buildItemsForSection sectionTitle sectionSlug (alistGetD st.sectionParagraphs key []) } ::
      mkMenuSections st (i + 1) rest

/-- Source `parse_docx` on an already decoded paragraph stream: the fatal error
for an empty stream, then the classifier pass and the model assembly.
The lookup `section_titles[key]` in the menu fallback is modelled with a
default, it is always present for keys of `section_order`. -/
def parseDocx (paragraphs : List Para) : Except String SiteData :=
  match paragraphs with
  | [] => .error "В content.docx не найдено содержимое"
  | home :: rest =>
    let homeTitle := home.text
    let st := classifyTail (normalizeSection homeTitle) rest
    let menuItems :=
      if st.menuItems.isEmpty then st.sectionOrder.map (fun k => alistGetD st.sectionTitles k "")
      else st.menuItems
    let normTitleLines := (st.titleLines.filter (fun l => pyStr l ≠ "")).map pyStr
    let siteTitle := normTitleLines.headD homeTitle
    let headerTitleMain := normTitleLines.headD siteTitle
    let headerTitleSub :=
      if 1 < normTitleLines.length then String.intercalate "<br>" (normTitleLines.drop 1) else ""
    let footerText :=
      String.intercalate "<br>" ((st.footerLines.filter (fun l => pyStr l ≠ "")).map pyStr)
    .ok
      { homeTitle := homeTitle, siteTitle := siteTitle,
        headerTitleMain := headerTitleMain, headerTitleSub := headerTitleSub,
        footerText := footerText, logoRelId := st.titleImageRelIds.head?,
        homeContentBlocks := st.homeContentBlocks,
        menuSections := mkMenuSections st 1 menuItems,
        homePreviewKeys := st.homePreviewKeys }

example :
    (classifyTail "главная"
      [⟨some "2", "Меню", []⟩, ⟨some "3", "Новости", []⟩, ⟨some "2", "Новости", []⟩,
       ⟨none, "статья", []⟩]).homePreviewKeys = ["новости"] := by decide

example :
    (classifyTail "главная"
      [⟨some "2", "Меню", []⟩, ⟨some "3", "Новости", []⟩, ⟨some "1", "Прочее", []⟩,
       ⟨some "2", "Новости", []⟩, ⟨none, "статья", []⟩]).sectionParagraphs
      = [("новости", [⟨none, "статья", []⟩])] := by decide

/-! ## Segmenter predicates and branch lemmas -/

/-- Depth-4 heading recognized as a date or video field marker: the
branches that `continue` before the implicit-item fallback. -/
def isMarkerHeading (p : Para) : Bool :=
  isH4Text p && ((parseHeading4Date p.text).fst || (parseHeading4Video p.text).fst)

/-- Content precedes the first depth-3 heading: some paragraph before
the first item heading reaches the implicit-item fallback line. -/
def hasOpener : List Para → Bool
  | [] => false
  | p :: ps => if isH3Text p then false else if isMarkerHeading p then hasOpener ps else true

/-- The texts of the depth-3 item headings of a bucket, in order. -/
def h3Titles (ps : List Para) : List String := (ps.filter isH3Text).map Para.text

/-- The number of depth-3 headings with non-empty text in a bucket. -/
def countH3 (ps : List Para) : Nat := (ps.filter isH3Text).length

theorem segStep_of_h3 (sT sS : String) (st : BuildState) (p : Para) (hp : isH3Text p = true) :
    segStep sT sS st p = { flushItem sS st with curTitle := some p.text } := by
  rw [segStep, if_pos hp]

theorem marker_not_h3 (p : Para) (hm : isMarkerHeading p = true) : isH3Text p = false := by
  rcases p with ⟨style, text, imgs⟩
  simp only [isMarkerHeading, isH4Text, Bool.and_eq_true, Bool.or_eq_true, beq_iff_eq] at hm
  rcases hm with ⟨⟨hstyle, _⟩, _⟩
  rcases hstyle with h | h <;> simp [isH3Text, h]

theorem segStep_items_of_marker (sT sS : String) (st : BuildState) (p : Para)
    (hm : isMarkerHeading p = true) :
    (segStep sT sS st p).items = st.items ∧ (segStep sT sS st p).curTitle = st.curTitle := by
  have h3 : isH3Text p = false := marker_not_h3 p hm
  simp only [isMarkerHeading, Bool.and_eq_true, Bool.or_eq_true] at hm
  rcases hm with ⟨h4, hdv⟩
  rw [segStep, if_neg (by simp [h3])]
  rcases hdv with hd | hv
  · rw [if_pos (by simp [h4, hd])]
    split <;> simp
  · by_cases hd : (parseHeading4Date p.text).fst = true
    · rw [if_pos (by simp [h4, hd])]
      split <;> simp
    · rw [if_neg (by simp [hd]), if_pos (by simp [h4, hv])]
      split <;> simp

theorem segStepTail_items (sT : String) (st : BuildState) (p : Para) :
    (segStepTail sT st p).items = st.items := by
  simp only [segStepTail]
  repeat' split
  all_goals rfl

theorem segStepTail_curTitle (sT : String) (st : BuildState) (p : Para) :
    (segStepTail sT st p).curTitle = if st.curTitle = none then some sT else st.curTitle := by
  simp only [segStepTail]
  repeat' split
  all_goals simp_all

theorem segStep_of_opener (sT sS : String) (st : BuildState) (p : Para)
    (h3 : isH3Text p = false) (hm : isMarkerHeading p = false) :
    segStep sT sS st p = segStepTail sT st p := by
  have hd : ¬((isH4Text p && (parseHeading4Date p.text).fst) = true) := by
    intro hc
    have hmt : isMarkerHeading p = true := by
      simp only [isMarkerHeading, Bool.and_eq_true, Bool.or_eq_true] at hc ⊢
      exact ⟨hc.1, Or.inl hc.2⟩
    rw [hm] at hmt
    exact Bool.false_ne_true hmt
  have hv : ¬((isH4Text p && (parseHeading4Video p.text).fst) = true) := by
    intro hc
    have hmt : isMarkerHeading p = true := by
      simp only [isMarkerHeading, Bool.and_eq_true, Bool.or_eq_true] at hc ⊢
      exact ⟨hc.1, Or.inr hc.2⟩
    rw [hm] at hmt
    exact Bool.false_ne_true hmt
  rw [segStep, if_neg (by simp [h3]), if_neg hd, if_neg hv]

theorem flushItem_of_none (sS : String) (st : BuildState) (h : st.curTitle = none) :
    flushItem sS st = st := by
  rw [flushItem, h]

/-! ## Item count and titles invariant -/

/-- The segmenter loop without the final flush. -/
def runSeg (sT sS : String) (st : BuildState) (ps : List Para) : BuildState :=
  ps.foldl (segStep sT sS) st

theorem buildItems_eq_run (sT sS : String) (ps : List Para) :
    buildItemsForSection sT sS ps = (flushItem sS (runSeg sT sS segStart ps)).items := rfl

theorem h3Text_ne (p : Para) (hp : isH3Text p = true) : p.text ≠ "" := by
  simp only [isH3Text, Bool.and_eq_true, ne_eq, decide_eq_true_eq] at hp
  exact hp.2

theorem flushItem_items_of_some (sS t : String) (st : BuildState)
    (h : st.curTitle = some t) (ht : t ≠ "") :
    (flushItem sS st).items.map Item.title = st.items.map Item.title ++ [t] := by
  rw [flushItem, h]
  simp [ht]

theorem seg_title_trace (sT sS : String) (hT : sT ≠ "") :
    ∀ (ps : List Para) (st : BuildState),
      (st.curTitle = none →
        ((flushItem sS (runSeg sT sS st ps)).items.map Item.title)
          = st.items.map Item.title ++ ((if hasOpener ps then [sT] else []) ++ h3Titles ps))
      ∧ (∀ t, st.curTitle = some t → t ≠ "" →
        ((flushItem sS (runSeg sT sS st ps)).items.map Item.title)
          = st.items.map Item.title ++ (t :: h3Titles ps)) := by
  intro ps
  induction ps with
  | nil =>
    intro st
    constructor
    · intro h
      rw [runSeg, List.foldl_nil, flushItem_of_none sS st h]
      simp [hasOpener, h3Titles]
    · intro t h ht
      rw [runSeg, List.foldl_nil]
      simp [flushItem_items_of_some sS t st h ht, h3Titles]
  | cons p ps ih =>
    intro st
    have hrun : runSeg sT sS st (p :: ps) = runSeg sT sS (segStep sT sS st p) ps := by
      rw [runSeg, List.foldl_cons, runSeg]
    cases hp3 : isH3Text p with
    | true =>
      have hptext : p.text ≠ "" := h3Text_ne p hp3
      have hstep := segStep_of_h3 sT sS st p hp3
      constructor
      · intro h
        rw [hrun, hstep, flushItem_of_none sS st h,
          (ih _).2 p.text rfl hptext]
        simp [hasOpener, hp3, h3Titles]
      · intro t h ht
        rw [hrun, hstep]
        have hflush := flushItem_items_of_some sS t st h ht
        rw [(ih _).2 p.text rfl hptext]
        have : ({ flushItem sS st with curTitle := some p.text } : BuildState).items
            = (flushItem sS st).items := rfl
        rw [this]
        have hmap : (flushItem sS st).items.map Item.title
            = st.items.map Item.title ++ [t] := hflush
        rw [hmap]
        simp [h3Titles, hp3]
    | false =>
      cases hpm : isMarkerHeading p with
      | true =>
        obtain ⟨hit, hct⟩ := segStep_items_of_marker sT sS st p hpm
        constructor
        · intro h
          rw [hrun, (ih _).1 (hct.trans h), hit]
          simp [hasOpener, hpm, hp3, h3Titles]
        · intro t h ht
          rw [hrun, (ih _).2 t (hct.trans h) ht, hit]
          simp [h3Titles, hp3]
      | false =>
        have hstep := segStep_of_opener sT sS st p hp3 hpm
        constructor
        · intro h
          rw [hrun, hstep]
          have hct : (segStepTail sT st p).curTitle = some sT := by
            rw [segStepTail_curTitle, if_pos h]
          rw [(ih _).2 sT hct hT, segStepTail_items]
          simp [hasOpener, hp3, hpm, h3Titles]
        · intro t h ht
          rw [hrun, hstep]
          have hct : (segStepTail sT st p).curTitle = some t := by
            rw [segStepTail_curTitle, if_neg (by simp [h]), h]
          rw [(ih _).2 t hct ht, segStepTail_items]
          simp [h3Titles, hp3]

/-- Claim C4: for every section paragraph bucket (and non-empty section
display title), the items' titles are exactly an optional implicit copy
of the section title — present iff content precedes the first depth-3
heading — followed by the depth-3 heading texts in order; hence the item
count is the depth-3 heading count plus one extra implicit item iff such
content exists, and at most one implicit item exists, carrying the
section's display title. -/
theorem claim_C4_item_count (sT sS : String) (ps : List Para) (hT : sT ≠ "") :
    (buildItemsForSection sT sS ps).map Item.title
        = (if hasOpener ps then [sT] else []) ++ h3Titles ps
    ∧ (buildItemsForSection sT sS ps).length
        = countH3 ps + (if hasOpener ps then 1 else 0) := by
  have htrace := (seg_title_trace sT sS hT ps segStart).1 rfl
  rw [buildItems_eq_run] at *
  constructor
  · simpa using htrace
  · have hlen : (flushItem sS (runSeg sT sS segStart ps)).items.length
        = ((flushItem sS (runSeg sT sS segStart ps)).items.map Item.title).length := by
      rw [List.length_map]
    rw [hlen, htrace]
    have hc : (h3Titles ps).length = countH3 ps := by rw [h3Titles, countH3, List.length_map]
    cases hasOpener ps <;> simp [segStart, hc]

theorem claim_C4_item_count_witness :
    ("Новости" ≠ "")
    ∧ ((buildItemsForSection "Новости" "news"
          [⟨none, "интро", []⟩, ⟨some "3", "Заголовок", []⟩, ⟨none, "текст", []⟩]).map Item.title
        = (if hasOpener [⟨none, "интро", []⟩, ⟨some "3", "Заголовок", []⟩, ⟨none, "текст", []⟩]
           then ["Новости"] else [])
          ++ h3Titles [⟨none, "интро", []⟩, ⟨some "3", "Заголовок", []⟩, ⟨none, "текст", []⟩]
    ∧ (buildItemsForSection "Новости" "news"
          [⟨none, "интро", []⟩, ⟨some "3", "Заголовок", []⟩, ⟨none, "текст", []⟩]).length
        = countH3 [⟨none, "интро", []⟩, ⟨some "3", "Заголовок", []⟩, ⟨none, "текст", []⟩]
          + (if hasOpener [⟨none, "интро", []⟩, ⟨some "3", "Заголовок", []⟩, ⟨none, "текст", []⟩]
             then 1 else 0)) :=
  ⟨by decide, claim_C4_item_count "Новости" "news" _ (by decide)⟩

theorem seg_markers_only (sT sS : String) : ∀ (ps : List Para) (st : BuildState),
    (∀ p ∈ ps, isMarkerHeading p = true) → st.curTitle = none →
    (flushItem sS (runSeg sT sS st ps)).items = st.items := by
  intro ps
  induction ps with
  | nil =>
    intro st _ h
    rw [runSeg, List.foldl_nil, flushItem_of_none sS st h]
  | cons p ps ih =>
    intro st hall h
    have hpm : isMarkerHeading p = true := hall p (by simp)
    obtain ⟨hit, hct⟩ := segStep_items_of_marker sT sS st p hpm
    have hrest := ih (segStep sT sS st p) (fun q hq => hall q (by simp [hq])) (hct.trans h)
    rw [runSeg, List.foldl_cons]
    rw [runSeg] at hrest
    rw [hrest, hit]

/-- Claim C10: a section bucket consisting only of date/video marker
headings yields no items at all: the marker branches are taken before
the implicit-item fallback, so no item is ever opened. -/
theorem claim_C10_markers_no_item (sT sS : String) (ps : List Para)
    (h : ∀ p ∈ ps, isMarkerHeading p = true) :
    buildItemsForSection sT sS ps = [] := by
  rw [buildItems_eq_run, seg_markers_only sT sS ps segStart h rfl]
  rfl

theorem claim_C10_markers_no_item_witness :
    (∀ p ∈ [(⟨some "4", "Дата", []⟩ : Para), ⟨some "4", "Видео", []⟩], isMarkerHeading p = true)
    ∧ buildItemsForSection "Новости" "news"
        [⟨some "4", "Дата", []⟩, ⟨some "4", "Видео", []⟩] = [] :=
  ⟨by decide, claim_C10_markers_no_item "Новости" "news" _ (by decide)⟩

/-- Claim C5: a depth-4 date marker heading with empty remainder latches
the date, so the following plain paragraph becomes `event_date` and its
text is not added to the body. -/
theorem claim_C5_date_latch (t sT sS : String)
    (hmark : parseHeading4Date t = (true, "")) (ht : t ≠ "") (hst : sT ≠ "") :
    (buildItemsForSection sT sS [⟨some "4", t, []⟩, ⟨none, "12.05.2024", []⟩]).map
        (fun it => (it.title, it.eventDate, it.body)) = [(sT, "12.05.2024", "")]
    ∧ ∀ it ∈ buildItemsForSection sT sS [⟨some "4", t, []⟩, ⟨none, "12.05.2024", []⟩],
        strContains it.body "12.05.2024" = false := by
  have h31 : isH3Text ⟨some "4", t, []⟩ = false := by simp [isH3Text]
  have h41 : (isH4Text (⟨some "4", t, []⟩ : Para)
      && (parseHeading4Date (Para.text ⟨some "4", t, []⟩)).fst) = true := by
    simp [isH4Text, ht, hmark]
  have e1 : segStep sT sS segStart ⟨some "4", t, []⟩
      = { items := [], curTitle := none, curBody := [], curImages := [], curDate := "",
          waitingDate := true, waitingVideo := false } := by
    rw [segStep, if_neg (by simp [h31]), if_pos h41]
    have : Para.text (⟨some "4", t, []⟩ : Para) = t := rfl
    rw [this, hmark]
    simp [segStart]
  have e2 : segStep sT sS
        { items := [], curTitle := none, curBody := [], curImages := [], curDate := "",
          waitingDate := true, waitingVideo := false } ⟨none, "12.05.2024", []⟩
      = { items := [], curTitle := some sT, curBody := [], curImages := [], curDate := "12.05.2024",
          waitingDate := false, waitingVideo := false } := by
    simp [segStep, segStepTail, isH3Text, isH4Text, addImages]
  have hfull : buildItemsForSection sT sS [⟨some "4", t, []⟩, ⟨none, "12.05.2024", []⟩]
      = [{ idx := 1, title := sT, body := "", imageRelIds := [], eventDate := "12.05.2024",
           excerpt := "", slug := slugify sT (sS ++ "-item-" ++ natDec 1) }] := by
    have hb : pyStr (String.intercalate "\n\n" ([] : List String)) = "" := by decide
    have he : itemExcerpt "" = "" := by decide
    rw [buildItems_eq_run, runSeg, List.foldl_cons, e1, List.foldl_cons, e2, List.foldl_nil,
      flushItem]
    simp [hst, hb, he]
  constructor
  · rw [hfull]
    simp
  · intro it hit
    rw [hfull] at hit
    simp only [List.mem_singleton] at hit
    subst hit
    exact (by decide : strContains "" "12.05.2024" = false)

theorem claim_C5_date_latch_witness :
    parseHeading4Date "Дата" = (true, "") ∧ ("Дата" ≠ "") ∧ ("Новости" ≠ "")
    ∧ (buildItemsForSection "Новости" "news"
        [⟨some "4", "Дата", []⟩, ⟨none, "12.05.2024", []⟩]).map
          (fun it => (it.title, it.eventDate, it.body)) = [("Новости", "12.05.2024", "")] :=
  ⟨by decide, by decide, by decide,
    (claim_C5_date_latch "Дата" "Новости" "news" (by decide) (by decide) (by decide)).1⟩

/-! ## Slug and index invariant of the segmenter -/

/-- The slug actually assigned to the item at 1-based position `n`. -/
def slugAt (sS t : String) (n : Nat) : String := slugify t (sS ++ "-item-" ++ natDec n)

/-- Every item of the list carries its 1-based position as index and the
slug derived from its title with the positional fallback. -/
def ItemsIndexed (sS : String) (its : List Item) : Prop :=
  ∀ k (hk : k < its.length),
    (its.get ⟨k, hk⟩).idx = k + 1 ∧ (its.get ⟨k, hk⟩).slug = slugAt sS (its.get ⟨k, hk⟩).title (k + 1)

theorem ItemsIndexed_append (sS : String) (its : List Item) (x : Item)
    (h : ItemsIndexed sS its) (hidx : x.idx = its.length + 1)
    (hslug : x.slug = slugAt sS x.title (its.length + 1)) :
    ItemsIndexed sS (its ++ [x]) := by
  intro k hk
  rw [List.length_append, List.length_singleton] at hk
  by_cases hlt : k < its.length
  · have hget : (its ++ [x]).get ⟨k, by simp; omega⟩ = its.get ⟨k, hlt⟩ := by
      rw [List.get_eq_getElem, List.get_eq_getElem]
      exact List.getElem_append_left hlt
    rw [hget]
    exact h k hlt
  · have hke : k = its.length := by omega
    subst hke
    have hget : (its ++ [x]).get ⟨its.length, by simp⟩ = x := by
      rw [List.get_eq_getElem]
      exact List.getElem_concat_length _ _ _ rfl (by simp)
    rw [hget]
    exact ⟨hidx, hslug⟩

theorem flushItem_indexed (sS : String) (st : BuildState) (h : ItemsIndexed sS st.items) :
    ItemsIndexed sS (flushItem sS st).items := by
  cases hct : st.curTitle with
  | none =>
    rw [flushItem_of_none sS st hct]
    exact h
  | some t =>
    simp only [flushItem, hct]
    by_cases ht : t = ""
    · rw [if_pos ht]
      exact h
    · rw [if_neg ht]
      exact ItemsIndexed_append sS st.items _ h rfl rfl

theorem segStep_indexed (sT sS : String) (st : BuildState) (p : Para)
    (h : ItemsIndexed sS st.items) : ItemsIndexed sS (segStep sT sS st p).items := by
  cases hp3 : isH3Text p with
  | true =>
    rw [segStep_of_h3 sT sS st p hp3]
    exact flushItem_indexed sS st h
  | false =>
    cases hpm : isMarkerHeading p with
    | true =>
      rw [(segStep_items_of_marker sT sS st p hpm).1]
      exact h
    | false =>
      rw [segStep_of_opener sT sS st p hp3 hpm, segStepTail_items]
      exact h

theorem runSeg_indexed (sT sS : String) : ∀ (ps : List Para) (st : BuildState),
    ItemsIndexed sS st.items → ItemsIndexed sS (flushItem sS (runSeg sT sS st ps)).items := by
  intro ps
  induction ps with
  | nil =>
    intro st h
    rw [runSeg, List.foldl_nil]
    exact flushItem_indexed sS st h
  | cons p ps ih =>
    intro st h
    rw [runSeg, List.foldl_cons]
    have := ih (segStep sT sS st p) (segStep_indexed sT sS st p h)
    rw [runSeg] at this
    exact this

theorem buildItems_indexed (sT sS : String) (ps : List Para) :
    ItemsIndexed sS (buildItemsForSection sT sS ps) := by
  rw [buildItems_eq_run]
  exact runSeg_indexed sT sS ps segStart (fun k hk => by simp [segStart] at hk)

/-- Claim C2 (amended): an item's slug is the transliterated slug of its
title, with the position-based fallback `<section-slug>-item-<n>` taken
exactly when that slug is empty; fallback slugs of distinct positions
are pairwise distinct.  (Items whose titles slugify to the same
non-empty slug share it: the source performs no deduplication.) -/
theorem claim_C2_amended_slug_rule (sT sS : String) (ps : List Para) :
    (∀ k (hk : k < (buildItemsForSection sT sS ps).length),
      ((buildItemsForSection sT sS ps).get ⟨k, hk⟩).slug
        = (if slugCore ((buildItemsForSection sT sS ps).get ⟨k, hk⟩).title = ""
           then sS ++ "-item-" ++ natDec (k + 1)
           else slugCore ((buildItemsForSection sT sS ps).get ⟨k, hk⟩).title))
    ∧ ∀ k l (hk : k < (buildItemsForSection sT sS ps).length)
        (hl : l < (buildItemsForSection sT sS ps).length), k ≠ l →
        slugCore ((buildItemsForSection sT sS ps).get ⟨k, hk⟩).title = "" →
        slugCore ((buildItemsForSection sT sS ps).get ⟨l, hl⟩).title = "" →
        ((buildItemsForSection sT sS ps).get ⟨k, hk⟩).slug
          ≠ ((buildItemsForSection sT sS ps).get ⟨l, hl⟩).slug := by
  have hinv := buildItems_indexed sT sS ps
  constructor
  · intro k hk
    rw [(hinv k hk).2, slugAt, slugify]
  · intro k l hk hl hkl hek hel
    rw [(hinv k hk).2, (hinv l hl).2, slugAt, slugAt, slugify, slugify, if_pos hek, if_pos hel]
    intro heq
    have hd := congrArg String.data heq
    rw [String.data_append, String.data_append, String.data_append, String.data_append] at hd
    have hcancel := List.append_cancel_left hd
    have hstr : natDec (k + 1) = natDec (l + 1) := String.ext hcancel
    have := natDec_inj (k + 1) (l + 1) (by omega) (by omega) hstr
    omega

/-- Input on which claim C2 fails: two items with the same title. -/
def c2cPs : List Para := [⟨some "3", "Привет", []⟩, ⟨some "3", "Привет", []⟩]

/-- Claim C2 counterexample: two items of one section whose titles both
transliterate to the non-empty slug `privet` receive identical slugs —
slugs are not pairwise distinct and no fallback fires. -/
theorem claim_C2_counterexample :
    (buildItemsForSection "Раздел" "sec" c2cPs).map Item.slug = ["privet", "privet"]
    ∧ slugCore "Привет" = "privet" := by decide

/-- Concrete bucket for the claim C2 witness: two all-symbol titles. -/
def c2wPs : List Para := [⟨some "3", "!!!", []⟩, ⟨none, "x", []⟩, ⟨some "3", "???", []⟩, ⟨none, "y", []⟩]

theorem claim_C2_amended_slug_rule_witness :
    slugCore "!!!" = "" ∧ slugCore "???" = ""
    ∧ ((buildItemsForSection "Тест" "sec" c2wPs).get ⟨0, by decide⟩).slug
        ≠ ((buildItemsForSection "Тест" "sec" c2wPs).get ⟨1, by decide⟩).slug :=
  ⟨by decide, by decide,
    (claim_C2_amended_slug_rule "Тест" "sec" c2wPs).2 0 1 (by decide) (by decide)
      (by decide) (by decide) (by decide)⟩

/-! ## Excerpt truncation -/

/-- A 300-character first block whose 237th character region ends in a
space: the truncation right-strips before appending the ellipsis. -/
def c7cBody : String := ⟨List.replicate 236 'a' ++ ' ' :: List.replicate 63 'a'⟩

/-- Claim C7 counterexample: this body's first blank-line-delimited block
is 300 plain characters with no blank line inside, yet the derived
excerpt has 239 characters, not 240: `first[:237].rstrip()` removed the
trailing space before `"..."` was appended. -/
theorem claim_C7_counterexample :
    (excerptBase c7cBody).length = 300
    ∧ firstBlockList c7cBody.data = c7cBody.data
    ∧ (itemExcerpt c7cBody).length = 239 := by decide

/-- Claim C7 (amended): a first block of at most 240 characters is the
excerpt unmodified; a longer block yields its first 237 characters with
trailing whitespace stripped plus an ellipsis — hence at most 240
characters, and exactly 240 when the 237-character cut carries no
trailing whitespace. -/
theorem claim_C7_amended_excerpt (body : String) :
    ((excerptBase body).length ≤ 240 → itemExcerpt body = excerptBase body)
    ∧ (240 < (excerptBase body).length →
        itemExcerpt body
            = String.mk (rstripList pyWs ((excerptBase body).data.take 237)) ++ "..."
        ∧ (itemExcerpt body).length ≤ 240
        ∧ (rstripList pyWs ((excerptBase body).data.take 237) = (excerptBase body).data.take 237 →
            (itemExcerpt body).length = 240)) := by
  constructor
  · intro h
    rw [itemExcerpt, if_neg (by omega)]
  · intro h
    have he : itemExcerpt body
        = String.mk (rstripList pyWs ((excerptBase body).data.take 237)) ++ "..." := by
      rw [itemExcerpt, if_pos h]
    refine ⟨he, ?_, ?_⟩
    · rw [he, String.length_append]
      have h1 : (String.mk (rstripList pyWs ((excerptBase body).data.take 237))).length ≤ 237 := by
        show (rstripList pyWs ((excerptBase body).data.take 237)).length ≤ 237
        rw [rstripList]
        calc ((((excerptBase body).data.take 237).reverse.dropWhile pyWs).reverse).length
            = (((excerptBase body).data.take 237).reverse.dropWhile pyWs).length :=
              List.length_reverse _
          _ ≤ ((excerptBase body).data.take 237).reverse.length :=
              (List.dropWhile_sublist _).length_le
          _ = ((excerptBase body).data.take 237).length := List.length_reverse _
          _ ≤ 237 := by rw [List.length_take]; omega
      have h2 : ("..." : String).length = 3 := rfl
      omega
    · intro hrs
      rw [he, String.length_append]
      have h1 : (String.mk (rstripList pyWs ((excerptBase body).data.take 237))).length = 237 := by
        show (rstripList pyWs ((excerptBase body).data.take 237)).length = 237
        rw [hrs, List.length_take]
        have h2 : (excerptBase body).data.length = (excerptBase body).length := rfl
        omega
      rw [h1]
      rfl

/-- A 300-character first block with no whitespace at the cut. -/
def c7wBody : String := ⟨List.replicate 300 'a'⟩

theorem claim_C7_amended_excerpt_witness :
    (240 < (excerptBase c7wBody).length) ∧ (itemExcerpt c7wBody).length = 240 :=
  ⟨by decide, ((claim_C7_amended_excerpt c7wBody).2 (by decide)).2.2 (by decide)⟩

/-! ## Video URL normalization at an embed tag -/

/-- A resolved video-marker value that looks like an embed tag. -/
def c3Tag : String := "<iframe src=\"https://example.com/embed\"></iframe>"

/-- Claim C3 evaluation: the source's pattern, being a raw string with
doubled backslashes, requires literal backslash characters after `src`
and around the quotes, so it never matches a real embed tag: the whole
tag text is returned unchanged instead of the quoted source URL, and the
segmenter then embeds the entire tag as the frame source inside the body
block. -/
theorem claim_C3_video_regex_evaluation :
    normalizeVideoUrl c3Tag = c3Tag
    ∧ normalizeVideoUrl c3Tag ≠ "https://example.com/embed"
    ∧ (buildItemsForSection "Новости" "news"
        [⟨some "3", "Ролик", []⟩,
         ⟨some "4", "Видео: <iframe src=\"https://example.com/embed\"></iframe>", []⟩]).map
          Item.body
      = [videoDiv c3Tag] := by decide

/-! ## Determinism and the empty-stream error -/

/-- Claim C8: the classifier, segmenter and assembler are one pure
function of the paragraph stream — equal streams yield structurally
equal results, with no dependence on iteration order, time or
randomness. -/
theorem claim_C8_deterministic (ps qs : List Para) (h : ps = qs) :
    parseDocx ps = parseDocx qs := by rw [h]

theorem claim_C8_deterministic_witness :
    parseDocx [⟨none, "Дом", []⟩] = parseDocx [⟨none, "Дом", []⟩] :=
  claim_C8_deterministic _ _ rfl

/-- Claim C9: an empty decoded paragraph stream is a fatal input error
propagated to the caller with no partial output, and every non-empty
stream takes the success branch. -/
theorem claim_C9_empty_stream_error :
    parseDocx [] = .error "В content.docx не найдено содержимое"
    ∧ ∀ (p : Para) (ps : List Para), ∃ d, parseDocx (p :: ps) = .ok d :=
  ⟨rfl, fun _ _ => ⟨_, rfl⟩⟩

/-! ## Classifier zone-collection lemmas -/

/-- Paragraph that cannot trigger a zone transition: empty text or a
style outside heading depths 1 and 2. -/
def nonTransition (p : Para) : Bool := p.text == "" || !(isStyle1 p.style || isStyle2 p.style)

theorem nonTransition_facts (p : Para) (h : nonTransition p = true) :
    (decide (p.text ≠ "") && (isStyle1 p.style || isStyle2 p.style)) = false
    ∧ (decide (p.text ≠ "") && isStyle1 p.style) = false := by
  by_cases ht : p.text = ""
  · simp [ht]
  · have h' : (isStyle1 p.style || isStyle2 p.style) = false := by
      have hbe : (p.text == "") = false := by simp [ht]
      rw [nonTransition, hbe, Bool.false_or] at h
      cases hor : (isStyle1 p.style || isStyle2 p.style)
      · rfl
      · rw [hor] at h
        simp at h
    have h1 : isStyle1 p.style = false := by
      cases hh : isStyle1 p.style
      · rfl
      · rw [hh, Bool.true_or] at h'
        simp at h'
    exact ⟨by simp [h'], by simp [h1]⟩

theorem classStep_bucket (hk k : String) (st : CState) (p : Para)
    (hcs : st.currentSection = some k)
    (hhas : alistHas st.sectionParagraphs k = true)
    (h1 : k ≠ "меню") (h2 : k ≠ "название") (h3 : k ≠ "контент") (h4 : k ≠ "__footer__")
    (hnt : nonTransition p = true) :
    classStep hk st p = { st with sectionParagraphs := alistAppendPara st.sectionParagraphs k p } := by
  obtain ⟨hc1, hc2⟩ := nonTransition_facts p hnt
  simp only [classStep]
  rw [if_neg (by rw [hc1]; exact Bool.false_ne_true)]
  rw [if_neg (by rw [hc2]; exact Bool.false_ne_true)]
  simp only [collectZone, hcs]
  rw [if_neg h1, if_neg h2, if_neg h3, if_neg h4, if_pos hhas]

theorem alistHas_appendPara (m : List (String × List Para)) (k : String) (p : Para)
    (h : alistHas m k = true) : alistHas (alistAppendPara m k p) k = true := by
  rw [alistAppendPara, alistHas, List.any_map]
  have hfun : ((fun kv : String × List Para => kv.fst == k) ∘
      (fun kv : String × List Para => if kv.fst = k then (kv.fst, kv.snd ++ [p]) else kv))
      = fun kv : String × List Para => kv.fst == k := by
    funext kv
    simp only [Function.comp]
    split <;> rfl
  rw [hfun]
  exact h

theorem alistAppendList_nil (m : List (String × List Para)) (k : String) :
    alistAppendList m k [] = m := by
  rw [alistAppendList]
  have hfun : ∀ kv ∈ m, (if kv.fst = k then (kv.fst, kv.snd ++ ([] : List Para)) else kv) = id kv := by
    intro kv _
    split <;> simp
  rw [List.map_congr_left hfun, List.map_id]

theorem alistAppendList_cons (m : List (String × List Para)) (k : String) (p : Para)
    (body : List Para) :
    alistAppendList (alistAppendPara m k p) k body = alistAppendList m k (p :: body) := by
  rw [alistAppendPara, alistAppendList, alistAppendList, List.map_map]
  apply List.map_congr_left
  intro kv _
  simp only [Function.comp]
  split <;> simp

theorem classify_bucket_fold (hk k : String) :
    ∀ (body : List Para), (∀ p ∈ body, nonTransition p = true) →
    ∀ st : CState, st.currentSection = some k → alistHas st.sectionParagraphs k = true →
    k ≠ "меню" → k ≠ "название" → k ≠ "контент" → k ≠ "__footer__" →
    List.foldl (classStep hk) st body
      = { st with sectionParagraphs := alistAppendList st.sectionParagraphs k body } := by
  intro body
  induction body with
  | nil =>
    intro _ st hcs hhas h1 h2 h3 h4
    rw [List.foldl_nil, alistAppendList_nil]
  | cons p body ih =>
    intro hb st hcs hhas h1 h2 h3 h4
    rw [List.foldl_cons, classStep_bucket hk k st p hcs hhas h1 h2 h3 h4 (hb p (by simp))]
    rw [ih (fun q hq => hb q (by simp [hq]))
      { st with sectionParagraphs := alistAppendPara st.sectionParagraphs k p } hcs
      (alistHas_appendPara st.sectionParagraphs k p hhas) h1 h2 h3 h4]
    congr 1
    exact alistAppendList_cons st.sectionParagraphs k p body

theorem classStep_footer (hk : String) (st : CState) (p : Para)
    (hcs : st.currentSection = some "__footer__") (hnt : nonTransition p = true) :
    classStep hk st p
      = { st with footerLines := st.footerLines ++ (if p.text = "" then [] else [p.text]) } := by
  obtain ⟨hc1, hc2⟩ := nonTransition_facts p hnt
  rcases st with ⟨mi, tl, ti, fl, hcb, sp, stt, so, hpk, cs, ch⟩
  simp only at hcs
  subst hcs
  simp only [classStep]
  rw [if_neg (by rw [hc1]; exact Bool.false_ne_true)]
  rw [if_neg (by rw [hc2]; exact Bool.false_ne_true)]
  simp only [collectZone]
  by_cases hp : p.text = "" <;> simp [hp]

theorem classify_footer_fold (hk : String) :
    ∀ (body : List Para), (∀ p ∈ body, nonTransition p = true) →
    ∀ st : CState, st.currentSection = some "__footer__" →
    List.foldl (classStep hk) st body
      = { st with
          footerLines := st.footerLines ++ (body.map Para.text).filter (fun t => t ≠ "") } := by
  intro body
  induction body with
  | nil =>
    intro _ st _
    rw [List.foldl_nil, List.map_nil, List.filter_nil, List.append_nil]
  | cons p body ih =>
    intro hb st hcs
    rw [List.foldl_cons, classStep_footer hk st p hcs (hb p (by simp))]
    rw [ih (fun q hq => hb q (by simp [hq]))
      { st with footerLines := st.footerLines ++ (if p.text = "" then [] else [p.text]) } hcs]
    congr 1
    by_cases hp : p.text = "" <;> simp [hp]

/-- Claim C6: a depth-2 heading "Нижний колонтитул" while still under
the home top-level heading switches to the reserved footer zone; all
subsequent non-transition lines are collected as footer lines and joined
with the `<br>` line-break marker, while no menu section and no
home-preview key is produced. -/
theorem claim_C6_footer_zone (body : List Para) (hb : ∀ p ∈ body, nonTransition p = true) :
    Except.map (fun d => (d.footerText, d.menuSections, d.homePreviewKeys))
      (parseDocx (⟨none, "Главная", []⟩ :: ⟨some "2", "Нижний колонтитул", []⟩ :: body))
    = Except.ok
        (String.intercalate "<br>"
          ((((body.map Para.text).filter (fun t => t ≠ "")).filter
              (fun l => pyStr l ≠ "")).map pyStr),
         [], []) := by
  have hstep : classStep (normalizeSection "Главная")
      (startCState (normalizeSection "Главная")) ⟨some "2", "Нижний колонтитул", []⟩
      = { startCState (normalizeSection "Главная") with currentSection := some "__footer__" } := by
    decide
  have hfold := classify_footer_fold (normalizeSection "Главная") body hb
      { startCState (normalizeSection "Главная") with currentSection := some "__footer__" } rfl
  simp only [parseDocx, classifyTail, List.foldl_cons, hstep, hfold]
  simp [startCState, mkMenuSections, Except.map]

/-- Footer body lines for the claim C6 witness. -/
def c6wBody : List Para := [⟨none, "Адрес", []⟩, ⟨none, "Телефон", []⟩]

theorem claim_C6_footer_zone_witness :
    (∀ p ∈ c6wBody, nonTransition p = true)
    ∧ Except.map (fun d => (d.footerText, d.menuSections, d.homePreviewKeys))
        (parseDocx (⟨none, "Главная", []⟩ :: ⟨some "2", "Нижний колонтитул", []⟩ :: c6wBody))
      = Except.ok
          (String.intercalate "<br>"
            ((((c6wBody.map Para.text).filter (fun t => t ≠ "")).filter
                (fun l => pyStr l ≠ "")).map pyStr),
           [], []) :=
  ⟨by decide, claim_C6_footer_zone c6wBody (by decide)⟩

/-! ## Legacy depth-2 sections -/

/-- Stream for the claim C1 counterexample: menu declares the two
entries, the matching section headings are at depth 2, and no depth-1
heading intervenes, so the whole stream stays under the home title. -/
def c1cStream : List Para :=
  [⟨none, "Главная", []⟩, ⟨some "2", "Меню", []⟩, ⟨some "3", "Новости", []⟩,
   ⟨some "3", "О нас", []⟩, ⟨some "2", "Новости", []⟩, ⟨none, "Текст новости", []⟩,
   ⟨some "2", "О нас", []⟩, ⟨none, "Текст о нас", []⟩]

/-- Claim C1 counterexample: on `c1cStream` the declared menu is
`["Новости", "О нас"]` and both matching depth-2 headings appear, yet no
dynamic section is created at all — the home-preview branch captures
both headings first (they are still under the home top-level heading),
their keys land in the preview list, the following paragraphs are
dropped, and both menu sections end up with empty item lists. -/
theorem claim_C1_counterexample :
    (classifyTail (normalizeSection "Главная") (c1cStream.drop 1)).menuItems
        = ["Новости", "О нас"]
    ∧ (classifyTail (normalizeSection "Главная") (c1cStream.drop 1)).sectionOrder = []
    ∧ (classifyTail (normalizeSection "Главная") (c1cStream.drop 1)).sectionParagraphs = []
    ∧ (classifyTail (normalizeSection "Главная") (c1cStream.drop 1)).homePreviewKeys
        = ["новости", "о нас"]
    ∧ ((parseDocx c1cStream).toOption.map
        (fun d => d.menuSections.map (fun s => (s.title, s.items))))
      = some [("Новости", []), ("О нас", [])] := by decide

/-- The header part of the claim C1 amended stream: menu declaration,
then a depth-1 heading that leaves the home scope, then the first legacy
depth-2 section heading. -/
def c1Hdr : List Para :=
  [⟨some "2", "Меню", []⟩, ⟨some "3", "Новости", []⟩, ⟨some "3", "О нас", []⟩,
   ⟨some "1", "Прочее", []⟩, ⟨some "2", "Новости", []⟩]

/-- The stream tail of the claim C1 amended statement. -/
def c1Tail (newsBody aboutBody : List Para) : List Para :=
  c1Hdr ++ newsBody ++ ⟨some "2", "О нас", []⟩ :: aboutBody

/-- Claim C1 (amended): with menu entries `["Новости", "О нас"]`
declared and the legacy depth-2 section headings occurring while the
current top-level heading differs from the home title (here after an
intervening depth-1 heading), the classifier assigns the paragraphs
following each matching depth-2 heading into exactly two dynamic
sections, one per menu entry, with no home-preview side effect. -/
theorem claim_C1_amended_legacy_sections (newsBody aboutBody : List Para)
    (hn : ∀ p ∈ newsBody, nonTransition p = true)
    (ha : ∀ p ∈ aboutBody, nonTransition p = true) :
    (classifyTail (normalizeSection "Главная") (c1Tail newsBody aboutBody)).menuItems
        = ["Новости", "О нас"]
    ∧ (classifyTail (normalizeSection "Главная") (c1Tail newsBody aboutBody)).sectionOrder
        = ["новости", "о нас"]
    ∧ alistGetD (classifyTail (normalizeSection "Главная")
        (c1Tail newsBody aboutBody)).sectionParagraphs "новости" [] = newsBody
    ∧ alistGetD (classifyTail (normalizeSection "Главная")
        (c1Tail newsBody aboutBody)).sectionParagraphs "о нас" [] = aboutBody
    ∧ (classifyTail (normalizeSection "Главная") (c1Tail newsBody aboutBody)).homePreviewKeys
        = [] := by
  have h5 : List.foldl (classStep (normalizeSection "Главная"))
      (startCState (normalizeSection "Главная")) c1Hdr
      = { menuItems := ["Новости", "О нас"], titleLines := [], titleImageRelIds := [],
          footerLines := [], homeContentBlocks := [], sectionParagraphs := [("новости", [])],
          sectionTitles := [("меню", "Меню"), ("новости", "Новости")],
          sectionOrder := ["новости"], homePreviewKeys := [],
          currentSection := some "новости", currentH1 := "прочее" } := by decide
  have t2 : List.foldl (classStep (normalizeSection "Главная"))
      { menuItems := ["Новости", "О нас"], titleLines := [], titleImageRelIds := [],
        footerLines := [], homeContentBlocks := [], sectionParagraphs := [("новости", [])],
        sectionTitles := [("меню", "Меню"), ("новости", "Новости")],
        sectionOrder := ["новости"], homePreviewKeys := [],
        currentSection := some "новости", currentH1 := "прочее" } newsBody
      = { menuItems := ["Новости", "О нас"], titleLines := [], titleImageRelIds := [],
          footerLines := [], homeContentBlocks := [],
          sectionParagraphs := [("новости", newsBody)],
          sectionTitles := [("меню", "Меню"), ("новости", "Новости")],
          sectionOrder := ["новости"], homePreviewKeys := [],
          currentSection := some "новости", currentH1 := "прочее" } := by
    rw [classify_bucket_fold (normalizeSection "Главная") "новости" newsBody hn _ rfl (by rfl)
      (by decide) (by decide) (by decide) (by decide)]
    rfl
  have t3 : classStep (normalizeSection "Главная")
      { menuItems := ["Новости", "О нас"], titleLines := [], titleImageRelIds := [],
        footerLines := [], homeContentBlocks := [],
        sectionParagraphs := [("новости", newsBody)],
        sectionTitles := [("меню", "Меню"), ("новости", "Новости")],
        sectionOrder := ["новости"], homePreviewKeys := [],
        currentSection := some "новости", currentH1 := "прочее" } ⟨some "2", "О нас", []⟩
      = { menuItems := ["Новости", "О нас"], titleLines := [], titleImageRelIds := [],
          footerLines := [], homeContentBlocks := [],
          sectionParagraphs := [("новости", newsBody), ("о нас", [])],
          sectionTitles := [("меню", "Меню"), ("новости", "Новости"), ("о нас", "О нас")],
          sectionOrder := ["новости", "о нас"], homePreviewKeys := [],
          currentSection := some "о нас", currentH1 := "прочее" } := by rfl
  have t4 : List.foldl (classStep (normalizeSection "Главная"))
      { menuItems := ["Новости", "О нас"], titleLines := [], titleImageRelIds := [],
        footerLines := [], homeContentBlocks := [],
        sectionParagraphs := [("новости", newsBody), ("о нас", [])],
        sectionTitles := [("меню", "Меню"), ("новости", "Новости"), ("о нас", "О нас")],
        sectionOrder := ["новости", "о нас"], homePreviewKeys := [],
        currentSection := some "о нас", currentH1 := "прочее" } aboutBody
      = { menuItems := ["Новости", "О нас"], titleLines := [], titleImageRelIds := [],
          footerLines := [], homeContentBlocks := [],
          sectionParagraphs := [("новости", newsBody), ("о нас", aboutBody)],
          sectionTitles := [("меню", "Меню"), ("новости", "Новости"), ("о нас", "О нас")],
          sectionOrder := ["новости", "о нас"], homePreviewKeys := [],
          currentSection := some "о нас", currentH1 := "прочее" } := by
    rw [classify_bucket_fold (normalizeSection "Главная") "о нас" aboutBody ha _ rfl (by rfl)
      (by decide) (by decide) (by decide) (by decide)]
    rfl
  rw [classifyTail, c1Tail, List.foldl_append, List.foldl_append, h5, t2, List.foldl_cons, t3, t4]
  exact ⟨rfl, rfl, rfl, rfl, rfl⟩

/-- Concrete section bodies for the claim C1 witness. -/
def c1wNews : List Para := [⟨none, "Текст новости", ["rId5"]⟩]

def c1wAbout : List Para := [⟨none, "Текст о нас", []⟩]

theorem claim_C1_amended_legacy_sections_witness :
    (∀ p ∈ c1wNews, nonTransition p = true) ∧ (∀ p ∈ c1wAbout, nonTransition p = true)
    ∧ (classifyTail (normalizeSection "Главная") (c1Tail c1wNews c1wAbout)).sectionOrder
        = ["новости", "о нас"]
    ∧ alistGetD (classifyTail (normalizeSection "Главная")
        (c1Tail c1wNews c1wAbout)).sectionParagraphs "новости" [] = c1wNews :=
  ⟨by decide, by decide,
    (claim_C1_amended_legacy_sections c1wNews c1wAbout (by decide) (by decide)).2.1,
    (claim_C1_amended_legacy_sections c1wNews c1wAbout (by decide) (by decide)).2.2.1⟩
